import Mathlib

/-!
Verification of the WAHA channel adapter (target normalizer, account resolver,
webhook ingestion endpoint, access-control engine, outbound dispatch).

JavaScript strings are embedded as `List Char` (`Str`).  The JS regular
expression character class `\d` is exactly `[0-9]`, embedded as membership in
the ten digit characters; `String.prototype.trim` removes leading/trailing
whitespace (the embedded whitespace set covers the ASCII whitespace characters
plus the common Unicode ones; the claims never rely on exotic whitespace);
case-insensitive matching (`/i`) is embedded by ASCII lowercasing, which is
faithful for the ASCII patterns used by the source (`waha:`, `user:`,
`group:`, `@c.us`).
-/

namespace OpenClawWaha

abbrev Str := List Char

/-- Embed a Lean string literal as a `Str`. -/
def str (s : String) : Str := s.data

/-- The characters matched by the JS regex class `\d`, i.e. `[0-9]`. -/
def isDigitChar (c : Char) : Bool :=
  (str "0123456789").contains c

/-- Whitespace characters removed by `String.prototype.trim` (ASCII whitespace
plus no-break space, BOM and the Unicode line/paragraph separators). -/
def isJsWhitespace (c : Char) : Bool :=
  [' ', '\t', '\n', '\r', '\x0b', '\x0c', '\u00A0', '\uFEFF', '\u2028', '\u2029'].contains c

/-- Source `String.prototype.trim`: drop whitespace from both ends. -/
def jsTrim (s : Str) : Str :=
  (((s.dropWhile isJsWhitespace).reverse.dropWhile isJsWhitespace)).reverse

/-- ASCII lowercasing, the canonicalization used for `/i` regex matching. -/
def lowerChar (c : Char) : Char :=
  if 'A' ≤ c ∧ c ≤ 'Z' then Char.ofNat (c.toNat + 32) else c

/-- Case-insensitive "starts with" test against an (already lowercase) pattern. -/
def startsWithCI (pat s : Str) : Bool :=
  decide ((s.take pat.length).map lowerChar = pat)

/-- Source `String.prototype.endsWith` (case-sensitive). -/
def endsWith (s suffix : Str) : Bool :=
  decide (suffix <:+ s)

/-! ### `normalize.ts` -/

/-- Source `trimmed.replace(/^waha:(?:user:|group:)?/i, "")`: strip one leading
`waha:` scheme (case-insensitive), with an optional `user:`/`group:`
sub-scope qualifier. -/
def stripWahaScheme (s : Str) : Str :=
  if startsWithCI (str "waha:") s then
    let r := s.drop 5
    if startsWithCI (str "user:") r then r.drop 5
    else if startsWithCI (str "group:") r then r.drop 6
    else r
  else s

/-- Source `e164ToChatId`: strip `+` and any non-digit characters; if no digits
remain return the input, otherwise append `@c.us`. -/
def e164ToChatId (e164 : Str) : Str :=
  let digits := e164.filter isDigitChar
  if digits = [] then e164 else digits ++ str "@c.us"

/-- The anchored match `chatId.match(/^(\d+)@c\.us$/i)`: a non-empty digit run
followed (case-insensitively) by `@c.us`, returning the digit run.  Since `@`
is not a digit, the regex can only match with the maximal digit prefix. -/
def matchDigitsCUs (s : Str) : Option Str :=
  let d := s.takeWhile isDigitChar
  if d ≠ [] ∧ (s.drop d.length).map lowerChar = str "@c.us" then some d else none

/-- Source `chatIdToE164`: digits before an individual-chat suffix get `+` prepended;
a `+`-prefixed input passes through; otherwise all digits of the input are
extracted and `+`-prefixed; an input with no digits passes through. -/
def chatIdToE164 (chatId : Str) : Str :=
  match matchDigitsCUs chatId with
  | some d => '+' :: d
  | none =>
    if chatId.head? = some '+' then chatId
    else
      let digits := chatId.filter isDigitChar
      if digits ≠ [] then '+' :: digits else chatId

/-- Source `isGroupChatId`: groups use `@g.us`, newsletters `@newsletter`. -/
def isGroupChatId (chatId : Str) : Bool :=
  endsWith chatId (str "@g.us") || endsWith chatId (str "@newsletter")

/-- Source `isDirectChatId`: individual chats use `@c.us`. -/
def isDirectChatId (chatId : Str) : Bool :=
  endsWith chatId (str "@c.us")

/-- The three-way suffix test of `normalizeWahaTarget`. -/
def hasWahaSuffix (s : Str) : Bool :=
  endsWith s (str "@c.us") || endsWith s (str "@g.us") || endsWith s (str "@newsletter")

/-- Source `normalizeWahaTarget`: trim, strip the `waha:` scheme, keep suffixed ids,
convert `+`-prefixed ids via `e164ToChatId`, append `@c.us` to pure-digit
runs, and otherwise pass through. -/
def normalizeWahaTarget (target : Str) : Str :=
  let trimmed := jsTrim target
  let stripped := stripWahaScheme trimmed
  if hasWahaSuffix stripped then stripped
  else if stripped.head? = some '+' then e164ToChatId stripped
  else
    let digits := stripped.filter isDigitChar
    if digits ≠ [] ∧ digits = stripped then digits ++ str "@c.us"
    else stripped

/-- Source `normalizeWahaAllowEntry`: trim, strip the `waha:` scheme; an
individual-chat id becomes `+digits`; a `+`-prefixed entry is kept; a
pure-digit entry gets `+` prepended; anything else passes through. -/
def normalizeWahaAllowEntry (entry : Str) : Str :=
  let trimmed := jsTrim entry
  let stripped := stripWahaScheme trimmed
  match matchDigitsCUs stripped with
  | some d => '+' :: d
  | none =>
    if stripped.head? = some '+' then stripped
    else
      let digits := stripped.filter isDigitChar
      if digits ≠ [] ∧ digits = stripped then '+' :: digits
      else stripped

/-! ### Configuration data model (`types.ts`, `config-schema.ts`)

`undefined`-able fields are `Option`s.  `allowFrom` entries may be strings or
numbers in the config; the source coerces every entry with `String(e)` before
use, so entries are embedded as the resulting strings.  The `mediaMaxMb`,
`webhookPath` and `groups` fields are carried by the source config types but
are irrelevant to every operation embedded here and are omitted. -/

inductive DmPolicy where
  | open_ | allowlist | pairing | disabled
deriving DecidableEq, Repr

inductive GroupPolicy where
  | open_ | allowlist | disabled
deriving DecidableEq, Repr

/-- Source `WahaAccountConfig` (named-account entry; `session` is required). -/
structure WahaAccountConfig where
  enabled : Option Bool := none
  session : Str
  name : Option Str := none
  allowFrom : Option (List Str) := none
  groupAllowFrom : Option (List Str) := none
  dmPolicy : Option DmPolicy := none
  groupPolicy : Option GroupPolicy := none
deriving DecidableEq, Repr

/-- Source `WahaConfig` (channel-wide section).  The named-accounts record is an
insertion-ordered map; record values may be `undefined`
(`WahaAccountConfigSchema.optional()`), hence the inner `Option`. -/
structure WahaConfig where
  enabled : Option Bool := none
  url : Option Str := none
  apiKey : Option Str := none
  session : Option Str := none
  name : Option Str := none
  hmacKey : Option Str := none
  allowFrom : Option (List Str) := none
  groupAllowFrom : Option (List Str) := none
  dmPolicy : Option DmPolicy := none
  groupPolicy : Option GroupPolicy := none
  accounts : Option (List (Str × Option WahaAccountConfig)) := none
deriving DecidableEq, Repr

/-- The slice of the host `OpenClawConfig` consumed by the adapter:
`cfg.channels?.waha`. -/
structure OpenClawConfig where
  waha : Option WahaConfig := none
deriving DecidableEq, Repr

/-- The policy-relevant part of the merged `WahaConfig & Partial<WahaAccountConfig>`
carried on a resolved account; only these four fields are read by the
access-control engine. -/
structure MergedWahaConfig where
  allowFrom : Option (List Str) := none
  groupAllowFrom : Option (List Str) := none
  dmPolicy : Option DmPolicy := none
  groupPolicy : Option GroupPolicy := none
deriving DecidableEq, Repr

/-- Source `ResolvedWahaAccount`. -/
structure ResolvedWahaAccount where
  accountId : Str
  name : Option Str := none
  enabled : Bool := true
  url : Str := []
  apiKey : Str := []
  session : Str
  hmacKey : Option Str := none
  config : MergedWahaConfig := {}
deriving DecidableEq, Repr

/-! ### `accounts.ts` -/

/-- Modelled from the spec: the reserved default-account sentinel id
(`DEFAULT_ACCOUNT_ID`) is exported by the host plugin SDK
(`src/routing/session-key.ts`), which is not part of this change-set.  The
spec calls it the "reserved default-account sentinel"; the source treats the
literal string `"default"` and the sentinel interchangeably
(`normalizeAccountId`), so the sentinel is embedded as `"default"`. -/
def DEFAULT_ACCOUNT_ID : Str := str "default"

/-- JS truthiness of an optional string: `undefined` and the empty string are
falsy. -/
def jsTruthy (o : Option Str) : Bool :=
  !(o.getD []).isEmpty

/-- Source `normalizeAccountId`. -/
def normalizeAccountId (accountId : Option Str) : Str :=
  match accountId with
  | none => DEFAULT_ACCOUNT_ID
  | some a =>
    if a = [] ∨ a = str "default" ∨ a = DEFAULT_ACCOUNT_ID then DEFAULT_ACCOUNT_ID else a

/-- Source `getWahaConfig`. -/
def getWahaConfig (cfg : OpenClawConfig) : Option WahaConfig :=
  cfg.waha

/-- The default account is listed iff `url && apiKey && session` are all
truthy (non-empty). -/
def defaultAccountCredentialed (w : WahaConfig) : Bool :=
  jsTruthy w.url && jsTruthy w.apiKey && jsTruthy w.session

/-- The keys of the named-accounts record, in insertion order. -/
def accountKeys (w : WahaConfig) : List Str :=
  (w.accounts.getD []).map Prod.fst

/-- Source `listWahaAccountIds`. -/
def listWahaAccountIds (cfg : OpenClawConfig) : List Str :=
  match getWahaConfig cfg with
  | none => []
  | some wahaConfig =>
    let base := if defaultAccountCredentialed wahaConfig then [DEFAULT_ACCOUNT_ID] else []
    (accountKeys wahaConfig).foldl
      (fun acc accountId => if acc.contains accountId then acc else acc ++ [accountId]) base

/-- Source `wahaConfig.accounts?.[normalizedId]`: record lookup (first binding wins);
an explicitly-`undefined` value behaves like an absent key. -/
def lookupWahaAccount (w : WahaConfig) (id : Str) : Option WahaAccountConfig :=
  ((w.accounts.getD []).lookup id).join

/-- Source `resolveWahaAccount`. -/
def resolveWahaAccount (cfg : OpenClawConfig) (accountId : Option Str) : ResolvedWahaAccount :=
  let normalizedId := normalizeAccountId accountId
  let wahaConfig := (getWahaConfig cfg).getD {}
  match lookupWahaAccount wahaConfig normalizedId with
  | some accountConfig =>
    if normalizedId = DEFAULT_ACCOUNT_ID then
      { accountId := DEFAULT_ACCOUNT_ID
        name := wahaConfig.name
        enabled := wahaConfig.enabled.getD true
        url := wahaConfig.url.getD []
        apiKey := wahaConfig.apiKey.getD []
        session := wahaConfig.session.getD (str "default")
        hmacKey := wahaConfig.hmacKey
        config :=
          { allowFrom := wahaConfig.allowFrom
            groupAllowFrom := wahaConfig.groupAllowFrom
            dmPolicy := wahaConfig.dmPolicy
            groupPolicy := wahaConfig.groupPolicy } }
    else
      { accountId := normalizedId
        name := some (accountConfig.name.getD normalizedId)
        enabled := accountConfig.enabled.getD true
        url := wahaConfig.url.getD []
        apiKey := wahaConfig.apiKey.getD []
        session := accountConfig.session
        hmacKey := wahaConfig.hmacKey
        config :=
          { allowFrom := accountConfig.allowFrom.orElse fun _ => wahaConfig.allowFrom
            groupAllowFrom := accountConfig.groupAllowFrom.orElse fun _ => wahaConfig.groupAllowFrom
            dmPolicy := accountConfig.dmPolicy.orElse fun _ => wahaConfig.dmPolicy
            groupPolicy := accountConfig.groupPolicy.orElse fun _ => wahaConfig.groupPolicy } }
  | none =>
    { accountId := DEFAULT_ACCOUNT_ID
      name := wahaConfig.name
      enabled := wahaConfig.enabled.getD true
      url := wahaConfig.url.getD []
      apiKey := wahaConfig.apiKey.getD []
      session := wahaConfig.session.getD (str "default")
      hmacKey := wahaConfig.hmacKey
      config :=
        { allowFrom := wahaConfig.allowFrom
          groupAllowFrom := wahaConfig.groupAllowFrom
          dmPolicy := wahaConfig.dmPolicy
          groupPolicy := wahaConfig.groupPolicy } }

/-- Source `isWahaAccountConfigured`: url, apiKey and session all non-empty after
trimming. -/
def isWahaAccountConfigured (account : ResolvedWahaAccount) : Bool :=
  !(jsTrim account.url).isEmpty && !(jsTrim account.apiKey).isEmpty &&
    !(jsTrim account.session).isEmpty

/-! ### Access control and inbound dispatch (`channel.ts` monitor)

The host pairing store (`pluginRuntime.channel.pairing.readAllowFromStore`)
is external to the adapter and is passed in as a parameter (`none` models an
absent store, matching the source's `?? []`). -/

/-- The `{ allowed, reason? }` result of `checkInboundAccessControl`. -/
structure AccessCheckResult where
  allowed : Bool
  reason : Option Str := none
deriving DecidableEq, Repr

/-- Source `checkInboundAccessControl`. -/
def checkInboundAccessControl (store : Option (List Str)) (senderId senderE164 : Str)
    (isGroup : Bool) (account : ResolvedWahaAccount) : AccessCheckResult :=
  let dmPolicy := account.config.dmPolicy.getD DmPolicy.pairing
  let groupPolicy := account.config.groupPolicy.getD GroupPolicy.allowlist
  if isGroup then
    if groupPolicy = GroupPolicy.disabled then
      { allowed := false, reason := some (str "groups disabled") }
    else if groupPolicy = GroupPolicy.allowlist then
      let normalizedGroupAllowFrom :=
        (account.config.groupAllowFrom.getD []).map normalizeWahaAllowEntry
      if ¬normalizedGroupAllowFrom.contains senderE164 ∧
          ¬normalizedGroupAllowFrom.contains senderId then
        { allowed := false, reason := some (str "sender not in group allowlist") }
      else { allowed := true }
    else { allowed := true }
  else if dmPolicy = DmPolicy.disabled then
    { allowed := false, reason := some (str "DMs disabled") }
  else if dmPolicy = DmPolicy.open_ then
    { allowed := true }
  else
    let combinedAllowFrom := (account.config.allowFrom.getD []) ++ store.getD []
    let normalizedDmAllowFrom := combinedAllowFrom.map normalizeWahaAllowEntry
    if normalizedDmAllowFrom.contains senderE164 ∨ normalizedDmAllowFrom.contains senderId then
      { allowed := true }
    else if dmPolicy = DmPolicy.pairing then
      { allowed := false, reason := some (str "pairing required") }
    else
      { allowed := false, reason := some (str "sender not in allowlist") }

/-! ### Webhook ingestion (`webhook-handler.ts`)

The per-request control flow is embedded as the ordered list of observable
actions the handler performs (its trace): writing the HTTP response, parsing
the body as JSON, and the dispatch side effects.  HMAC digests
(`crypto.createHmac(...).digest("hex")`) are supplied by an oracle
`hmacHex algorithm key body`, returning `none` when `createHmac` throws on an
unsupported algorithm name; JSON parsing is supplied by an oracle `parse`,
returning `none` when `JSON.parse` throws.  Buffer byte lengths of the
ASCII hex digest and signature strings are character counts. -/

/-- One observable action of the webhook request handler / message handler. -/
inductive WEvent where
  /-- The HTTP response is written (`res.end`) with this status code. -/
  | respond (status : Nat)
  /-- Source `JSON.parse` is invoked on the raw body. -/
  | parseJson
  /-- Source `recordChannelRuntimeState` marks inbound activity. -/
  | recordInbound
  /-- Source `checkInboundAccessControl` is evaluated. -/
  | accessCheck
  /-- Source `upsertPairingRequest` records a pending pairing request. -/
  | upsertPairing
  /-- the pairing-instructions reply is sent to the sender. -/
  | sendPairingText
  /-- the accepted message is dispatched to the host reply pipeline. -/
  | dispatchReply
  /-- the reaction callback is invoked. -/
  | invokeReaction
  /-- the session-status callback is invoked. -/
  | invokeSessionStatus
  /-- an unhandled event kind is logged and ignored. -/
  | logIgnored
deriving DecidableEq, Repr

/-- Source `validateWahaHmac`: compute the hex HMAC of the raw body and compare with
`crypto.timingSafeEqual`, which throws (`Except.error`) when the two buffers
have different lengths; `crypto.createHmac` throws on an unknown algorithm
name (oracle returns `none`). -/
def validateWahaHmac (hmacHex : Str → Str → Str → Option Str)
    (rawBody signature hmacKey algorithm : Str) : Except Unit Bool :=
  match hmacHex algorithm hmacKey rawBody with
  | none => Except.error ()
  | some computed =>
    if computed.length = signature.length then Except.ok (computed = signature)
    else Except.error ()

/-- Source `WahaMessagePayload` (the fields the dispatch path reads; `from` is a
reserved word in Lean and is embedded as `chatFrom`). -/
structure WahaMessagePayload where
  id : Str := []
  chatFrom : Str := []
  participant : Option Str := none
  fromMe : Bool := false
  body : Option Str := none
deriving DecidableEq, Repr

/-- The webhook event envelope.  `payload` is duck-typed in the source
(`WahaMessagePayload | WahaReactionPayload | WahaSessionStatusPayload`); only
message payloads are inspected by the embedded control flow (reaction and
session-status payloads are passed opaquely to host callbacks), so the
envelope carries the message view of the payload. -/
structure WahaWebhookPayload where
  event : Str
  session : Str := []
  message : WahaMessagePayload := {}
deriving DecidableEq, Repr

/-- The inbound HTTP request (the fields the handler reads). -/
structure WebhookRequest where
  method : Str
  hmacHeader : Option Str := none
  hmacAlgorithmHeader : Option Str := none
  body : Str := []
deriving DecidableEq, Repr

/-- The observable actions of the monitor's `handleMessage`
(`monitorWahaProvider`): record inbound activity, evaluate access control,
then either escalate to pairing, drop silently, or dispatch the reply.
(The construction of the message context and the outbound replies themselves
are host calls outside this trace.) -/
def handleMessageTrace (store : Option (List Str)) (account : ResolvedWahaAccount)
    (payload : WahaMessagePayload) : List WEvent :=
  let senderId := payload.participant.getD payload.chatFrom
  let senderE164 := chatIdToE164 senderId
  let isGroup := isGroupChatId payload.chatFrom
  let accessCheck := checkInboundAccessControl store senderId senderE164 isGroup account
  WEvent.recordInbound :: WEvent.accessCheck ::
    (if ¬accessCheck.allowed then
      if accessCheck.reason = some (str "pairing required") then
        [WEvent.upsertPairing, WEvent.sendPairingText]
      else []
    else [WEvent.dispatchReply])

/-- The post-response event dispatch (`switch (event)`), with the `fromMe`
self-echo guard. -/
def dispatchWebhookEvent (store : Option (List Str)) (account : ResolvedWahaAccount)
    (payload : WahaWebhookPayload) : List WEvent :=
  if payload.event = str "message" ∨ payload.event = str "message.any" then
    if payload.message.fromMe then [] else handleMessageTrace store account payload.message
  else if payload.event = str "message.reaction" then [WEvent.invokeReaction]
  else if payload.event = str "session.status" then [WEvent.invokeSessionStatus]
  else [WEvent.logIgnored]

/-- The accepted-POST tail of the handler: parse the body (a parse failure is
the thrown-before-response case, caught as a 500), respond 200, then dispatch. -/
def acceptWebhookBody (parse : Str → Option WahaWebhookPayload) (store : Option (List Str))
    (account : ResolvedWahaAccount) (body : Str) : List WEvent :=
  match parse body with
  | none => [WEvent.parseJson, WEvent.respond 500]
  | some payload => WEvent.parseJson :: WEvent.respond 200 :: dispatchWebhookEvent store account payload

/-- The full per-request handler of `registerWahaWebhookHandler` as a trace.
`if (account.hmacKey)` is JS truthiness, so an empty-string key disables the
check; a missing or empty (falsy) signature header yields the 401
missing-signature response; a `validateWahaHmac` throw is caught by the outer
handler and yields a 500 before any response was written. -/
def handleWebhookRequest (hmacHex : Str → Str → Str → Option Str)
    (parse : Str → Option WahaWebhookPayload) (store : Option (List Str))
    (account : ResolvedWahaAccount) (req : WebhookRequest) : List WEvent :=
  if req.method = str "GET" then [WEvent.respond 200]
  else if req.method ≠ str "POST" then [WEvent.respond 405]
  else
    match account.hmacKey with
    | none => acceptWebhookBody parse store account req.body
    | some hmacKey =>
      if hmacKey = [] then acceptWebhookBody parse store account req.body
      else
        match req.hmacHeader with
        | none => [WEvent.respond 401]
        | some signature =>
          if signature = [] then [WEvent.respond 401]
          else
            let algorithm := req.hmacAlgorithmHeader.getD (str "sha512")
            match validateWahaHmac hmacHex req.body signature hmacKey algorithm with
            | Except.error _ => [WEvent.respond 500]
            | Except.ok false => [WEvent.respond 401]
            | Except.ok true => acceptWebhookBody parse store account req.body

/-! ### Outbound dispatch (`channel.ts` `sendPayload`)

The remote HTTP client is embedded as the ordered list of calls issued plus
an oracle `ids` giving the message id returned by the n-th (0-based) call;
the markdown-aware chunker is host-supplied and passed as a parameter. -/

/-- One outbound call to the WAHA HTTP client.  (Location coordinates, title
and address are forwarded opaquely and are not recorded on the call.) -/
inductive WahaClientCall where
  | sendText (session chatId text : Str)
  | sendImage (session chatId mediaUrl : Str)
  | sendLocation (session chatId : Str)
deriving DecidableEq, Repr

/-- The outbound payload fields read by `sendPayload`.  `wahaLocation` embeds
`payload.channelData?.waha?.location` (present/absent is what the control
flow inspects). -/
structure OutboundPayload where
  text : Option Str := none
  mediaUrls : Option (List Str) := none
  mediaUrl : Option Str := none
  wahaLocation : Option Unit := none
deriving DecidableEq, Repr

/-- The `{ channel, messageId, chatId }` result of `sendPayload`. -/
structure SendResult where
  channel : Str
  messageId : Str
  chatId : Str
deriving DecidableEq, Repr

/-- Source `wahaPlugin.outbound.sendPayload`: resolve the account, require it to be
configured, then send text chunks, then media, then location, in order;
the result id is the last call's id, or the placeholder `"sent"` when no
call was made.  (Outbound HTTP failures abort the remainder; the embedding
records the calls issued on the all-successful path, which is the path every
claim about this function concerns.) -/
def wahaSendPayload (chunk : Str → Nat → List Str) (ids : Nat → Str)
    (cfg : OpenClawConfig) (accountId : Option Str) (target : Str) (payload : OutboundPayload) :
    Except Str (SendResult × List WahaClientCall) :=
  let account := resolveWahaAccount cfg accountId
  if ¬isWahaAccountConfigured account then Except.error (str "WAHA not configured")
  else
    let chatId := normalizeWahaTarget target
    let text := payload.text.getD []
    let textCalls :=
      if ¬(jsTrim text).isEmpty then
        (chunk text 4000).map fun c => WahaClientCall.sendText account.session chatId c
      else []
    let mediaUrls :=
      payload.mediaUrls.getD (if jsTruthy payload.mediaUrl then [payload.mediaUrl.getD []] else [])
    let mediaCalls := mediaUrls.map fun u => WahaClientCall.sendImage account.session chatId u
    let locationCalls :=
      match payload.wahaLocation with
      | some _ => [WahaClientCall.sendLocation account.session chatId]
      | none => []
    let calls := textCalls ++ mediaCalls ++ locationCalls
    let messageId := if calls.isEmpty then str "sent" else ids (calls.length - 1)
    Except.ok ({ channel := str "waha", messageId := messageId, chatId := chatId }, calls)

/-! ### Concrete fixtures

Closed instantiations of the external oracles and of accounts/requests, used
by the concrete evaluations below. -/

/-- A toy HMAC oracle: supports only `sha512`, with digest `key ++ body`. -/
def hmacToy : Str → Str → Str → Option Str := fun algorithm key body =>
  if algorithm = str "sha512" then some (key ++ body) else none

/-- A JSON-parse oracle that always throws. -/
def parseNone : Str → Option WahaWebhookPayload := fun _ => none

/-- A `message` envelope from an external sender. -/
def payloadMsg : WahaWebhookPayload :=
  { event := str "message", session := str "s",
    message := { id := str "m1", chatFrom := str "5511@c.us", fromMe := false } }

/-- A `message` envelope echoing the bot's own outbound message. -/
def payloadFromMe : WahaWebhookPayload :=
  { event := str "message", session := str "s",
    message := { id := str "m2", chatFrom := str "5511@c.us", fromMe := true } }

/-- A JSON-parse oracle that succeeds with `payloadMsg`. -/
def parseMsg : Str → Option WahaWebhookPayload := fun _ => some payloadMsg

/-- An account with an HMAC key configured. -/
def acctHmac : ResolvedWahaAccount :=
  { accountId := str "default", session := str "default", hmacKey := some (str "k") }

/-- An account with no HMAC key and an open DM policy. -/
def acctPlain : ResolvedWahaAccount :=
  { accountId := str "default", session := str "default",
    config := { dmPolicy := some DmPolicy.open_ } }

/-- A POST with a signature header whose length cannot match the digest. -/
def reqBadSig : WebhookRequest :=
  { method := str "POST", hmacHeader := some (str "xyz"), body := str "b" }

/-- A POST with no signature header. -/
def reqNoSig : WebhookRequest :=
  { method := str "POST", body := str "b" }

/-- A plain POST. -/
def reqPost : WebhookRequest :=
  { method := str "POST", body := str "{}" }

/-- A config whose named-accounts map uses the reserved default id as a key
while the default account itself is not credentialed. -/
def cfgDefaultKey : OpenClawConfig :=
  { waha := some { accounts := some [(str "default", some { session := str "s1" })] } }

/-! ## Helper lemmas -/

theorem jsTrim_sublist (s : Str) : List.Sublist (jsTrim s) s := by
  have h1 : List.Sublist (s.dropWhile isJsWhitespace) s := List.dropWhile_sublist _
  have h2 : List.Sublist ((s.dropWhile isJsWhitespace).reverse.dropWhile isJsWhitespace)
      (s.dropWhile isJsWhitespace).reverse := List.dropWhile_sublist _
  have h3 := h2.reverse
  rw [List.reverse_reverse] at h3
  exact h3.trans h1

/-- Zeta-reduced equation for `stripWahaScheme`. -/
theorem stripWahaScheme_eq (s : Str) :
    stripWahaScheme s =
      if startsWithCI (str "waha:") s then
        if startsWithCI (str "user:") (s.drop 5) then (s.drop 5).drop 5
        else if startsWithCI (str "group:") (s.drop 5) then (s.drop 5).drop 6
        else s.drop 5
      else s := rfl

theorem stripWahaScheme_sublist (s : Str) : List.Sublist (stripWahaScheme s) s := by
  rw [stripWahaScheme_eq]
  split
  · split
    · exact ((s.drop 5).drop_sublist 5).trans (s.drop_sublist 5)
    · split
      · exact ((s.drop 5).drop_sublist 6).trans (s.drop_sublist 5)
      · exact s.drop_sublist 5
  · exact List.Sublist.refl s

/-- If stripping the scheme off the trim of `y` recovers `y` itself, then `y`
was already trimmed and scheme-free. -/
theorem fixed_of_stripTrim_eq {y : Str} (h : stripWahaScheme (jsTrim y) = y) :
    jsTrim y = y ∧ stripWahaScheme y = y := by
  have hs : List.Sublist (stripWahaScheme (jsTrim y)) (jsTrim y) := stripWahaScheme_sublist _
  have ht : List.Sublist (jsTrim y) y := jsTrim_sublist y
  have hlen1 : (stripWahaScheme (jsTrim y)).length ≤ (jsTrim y).length := hs.length_le
  have hlen2 : (jsTrim y).length ≤ y.length := ht.length_le
  rw [h] at hlen1
  have hteq : jsTrim y = y := ht.eq_of_length (Nat.le_antisymm hlen2 hlen1)
  refine ⟨hteq, ?_⟩
  rw [hteq] at h
  exact h

/-- Zeta-reduced equation for `normalizeWahaTarget`. -/
theorem normalizeWahaTarget_eq (x : Str) :
    normalizeWahaTarget x =
      if hasWahaSuffix (stripWahaScheme (jsTrim x)) then stripWahaScheme (jsTrim x)
      else if (stripWahaScheme (jsTrim x)).head? = some '+' then
        e164ToChatId (stripWahaScheme (jsTrim x))
      else if (stripWahaScheme (jsTrim x)).filter isDigitChar ≠ [] ∧
          (stripWahaScheme (jsTrim x)).filter isDigitChar = stripWahaScheme (jsTrim x) then
        (stripWahaScheme (jsTrim x)).filter isDigitChar ++ str "@c.us"
      else stripWahaScheme (jsTrim x) := rfl

/-- Zeta-reduced equation for `matchDigitsCUs`. -/
theorem matchDigitsCUs_eq (s : Str) :
    matchDigitsCUs s =
      if s.takeWhile isDigitChar ≠ [] ∧
          (s.drop (s.takeWhile isDigitChar).length).map lowerChar = str "@c.us" then
        some (s.takeWhile isDigitChar)
      else none := rfl

/-- Zeta-reduced equation for `e164ToChatId`. -/
theorem e164ToChatId_eq (s : Str) :
    e164ToChatId s =
      if s.filter isDigitChar = [] then s else s.filter isDigitChar ++ str "@c.us" := rfl

/-- Every output of `normalizeWahaTarget` is suffixed, a digit-free
`+`-headed pass-through, or a pass-through matching none of the rewrite
conditions. -/
theorem normalizeWahaTarget_cases (x : Str) :
    hasWahaSuffix (normalizeWahaTarget x) = true ∨
    (hasWahaSuffix (normalizeWahaTarget x) = false ∧
      (normalizeWahaTarget x).head? = some '+' ∧
      (normalizeWahaTarget x).filter isDigitChar = []) ∨
    (hasWahaSuffix (normalizeWahaTarget x) = false ∧
      (normalizeWahaTarget x).head? ≠ some '+' ∧
      ¬((normalizeWahaTarget x).filter isDigitChar ≠ [] ∧
        (normalizeWahaTarget x).filter isDigitChar = normalizeWahaTarget x)) := by
  rw [normalizeWahaTarget_eq]
  split
  · next hsuf => exact Or.inl hsuf
  · next hsuf =>
    split
    · next hplus =>
      rw [e164ToChatId_eq]
      split
      · next hdig =>
        refine Or.inr (Or.inl ⟨by simpa using hsuf, hplus, hdig⟩)
      · next hdig =>
        refine Or.inl ?_
        have hmem : str "@c.us" <:+ (stripWahaScheme (jsTrim x)).filter isDigitChar ++ str "@c.us" :=
          ⟨(stripWahaScheme (jsTrim x)).filter isDigitChar, rfl⟩
        simp [hasWahaSuffix, endsWith, hmem]
    · next hplus =>
      split
      · next hdig =>
        refine Or.inl ?_
        have hmem : str "@c.us" <:+ (stripWahaScheme (jsTrim x)).filter isDigitChar ++ str "@c.us" :=
          ⟨(stripWahaScheme (jsTrim x)).filter isDigitChar, rfl⟩
        simp [hasWahaSuffix, endsWith, hmem]
      · next hdig =>
        exact Or.inr (Or.inr ⟨by simpa using hsuf, hplus, hdig⟩)

theorem isDigitChar_cases {c : Char} (h : isDigitChar c = true) :
    c = '0' ∨ c = '1' ∨ c = '2' ∨ c = '3' ∨ c = '4' ∨
    c = '5' ∨ c = '6' ∨ c = '7' ∨ c = '8' ∨ c = '9' := by
  have hm : c ∈ str "0123456789" := by simpa [isDigitChar] using h
  simpa [str] using hm

/-- The facts about digit characters used in the normalization proofs. -/
theorem digitChar_facts {c : Char} (h : isDigitChar c = true) :
    isJsWhitespace c = false ∧ lowerChar c = c ∧ c ≠ 'w' ∧ c ≠ '+' ∧ c ≠ '@' := by
  rcases isDigitChar_cases h with rfl | rfl | rfl | rfl | rfl | rfl | rfl | rfl | rfl | rfl <;>
    exact ⟨by decide, by decide, by decide, by decide, by decide⟩

theorem dropWhile_eq_self_of_false {p : Char → Bool} {s : Str}
    (h : ∀ c ∈ s, p c = false) : s.dropWhile p = s := by
  cases s with
  | nil => rfl
  | cons a t => simp [List.dropWhile_cons, h a (List.mem_cons_self a t)]

theorem jsTrim_eq_self {s : Str} (h : ∀ c ∈ s, isJsWhitespace c = false) : jsTrim s = s := by
  unfold jsTrim
  rw [dropWhile_eq_self_of_false h,
    dropWhile_eq_self_of_false fun c hc => h c (List.mem_reverse.mp hc),
    List.reverse_reverse]

theorem startsWithCI_false_of_head {pat s : Str} {c p : Char}
    (hne : pat.head? = some p) (hc : s.head? = some c) (h : lowerChar c ≠ p) :
    startsWithCI pat s = false := by
  cases s with
  | nil => simp at hc
  | cons a t =>
    cases pat with
    | nil => simp at hne
    | cons b u =>
      obtain rfl : a = c := by simpa using hc
      obtain rfl : b = p := by simpa using hne
      simp only [startsWithCI, List.length_cons, List.take_succ_cons, List.map_cons,
        decide_eq_false_iff_not]
      intro heq
      exact h (List.cons.injEq .. ▸ heq).1

theorem stripWahaScheme_eq_self_of_head {s : Str} {c : Char}
    (hc : s.head? = some c) (h : lowerChar c ≠ 'w') : stripWahaScheme s = s := by
  rw [stripWahaScheme_eq,
    startsWithCI_false_of_head (show (str "waha:").head? = some 'w' by decide) hc h]
  simp

theorem hasWahaSuffix_false_of_no_at {s : Str} (h : '@' ∉ s) : hasWahaSuffix s = false := by
  simp only [hasWahaSuffix, endsWith, Bool.or_eq_false_iff, decide_eq_false_iff_not]
  refine ⟨⟨fun hsuf => h (hsuf.subset (by decide)), fun hsuf => h (hsuf.subset (by decide))⟩,
    fun hsuf => h (hsuf.subset (by decide))⟩

theorem no_at_of_all_digits {s : Str} (h : ∀ c ∈ s, isDigitChar c = true) : '@' ∉ s :=
  fun hm => absurd (h '@' hm) (by decide)

theorem takeWhile_append_of_all {p : Char → Bool} {l r : Str} (h : ∀ c ∈ l, p c = true) :
    (l ++ r).takeWhile p = l ++ r.takeWhile p := by
  induction l with
  | nil => simp
  | cons a t ih =>
    simp only [List.cons_append, List.takeWhile_cons, h a (List.mem_cons_self a t), if_true]
    rw [ih fun c hc => h c (List.mem_cons_of_mem a hc)]

/-- The anchored individual-chat-id match succeeds exactly on a nonempty
digit run followed by a case-variant of `@c.us`. -/
theorem matchDigitsCUs_append {d rest : Str} (hne : d ≠ [])
    (hdig : ∀ c ∈ d, isDigitChar c = true) (hrest : rest.map lowerChar = str "@c.us") :
    matchDigitsCUs (d ++ rest) = some d := by
  have hrest_head : rest.takeWhile isDigitChar = [] := by
    cases rest with
    | nil => simp [str] at hrest
    | cons a t =>
      have ha : lowerChar a = '@' := by
        have := (List.cons.injEq .. ▸ hrest).1
        simpa [str] using this
      have hnd : isDigitChar a = false := by
        by_contra hcon
        have := (digitChar_facts (Bool.of_not_eq_false hcon)).2.1
        rw [this] at ha
        exact (digitChar_facts (Bool.of_not_eq_false hcon)).2.2.2.2 ha
      simp [List.takeWhile_cons, hnd]
  have htake : (d ++ rest).takeWhile isDigitChar = d := by
    rw [takeWhile_append_of_all hdig, hrest_head, List.append_nil]
  rw [matchDigitsCUs_eq, htake, List.drop_left, if_pos ⟨hne, hrest⟩]

/-- C5 counterexample: a group-suffixed id is not passed through unchanged —
the fallback extracts its digits and prepends `+`. -/
theorem C5_counterexample :
    chatIdToE164 (str "123@g.us") = str "+123" ∧ str "+123" ≠ str "123@g.us" :=
  ⟨by decide, by decide⟩

/-- C5 (amended): `toExternalId` prepends `+` to the digits of an
individual-chat id; passes a `+`-prefixed input through; and for every other
input extracts *all* of its digits and prepends `+` when at least one digit
is present (the pure-digits case being an instance), passing through
unchanged only the inputs that contain no digit at all (so group- and
broadcast-suffixed ids containing digits are not passed through). -/
theorem C5_chatIdToE164_characterization (s : Str) :
    (∀ d rest, s = d ++ rest → d ≠ [] → (∀ c ∈ d, isDigitChar c = true) →
      rest.map lowerChar = str "@c.us" → chatIdToE164 s = '+' :: d) ∧
    (matchDigitsCUs s = none → s.head? = some '+' → chatIdToE164 s = s) ∧
    (matchDigitsCUs s = none → s.head? ≠ some '+' → s.filter isDigitChar ≠ [] →
      chatIdToE164 s = '+' :: s.filter isDigitChar) ∧
    (matchDigitsCUs s = none → s.head? ≠ some '+' → s.filter isDigitChar = [] →
      chatIdToE164 s = s) := by
  refine ⟨?_, ?_, ?_, ?_⟩
  · rintro d rest rfl hne hdig hrest
    rw [chatIdToE164, matchDigitsCUs_append hne hdig hrest]
  · intro hm hplus
    rw [chatIdToE164, hm]
    simp [hplus]
  · intro hm hplus hdig
    rw [chatIdToE164, hm]
    simp only [hplus, if_false]
    rw [if_pos hdig]
  · intro hm hplus hdig
    rw [chatIdToE164, hm]
    simp only [hplus, if_false]
    rw [if_neg (by simp [hdig])]

/-- C5 witness: the four branches at concrete inputs. -/
theorem C5_chatIdToE164_characterization_witness :
    chatIdToE164 (str "123@C.US") = str "+123" ∧
    chatIdToE164 (str "+55abc") = str "+55abc" ∧
    chatIdToE164 (str "ab1c2") = str "+12" ∧
    chatIdToE164 (str "abc") = str "abc" := by
  refine ⟨?_, ?_, ?_, ?_⟩
  · exact (C5_chatIdToE164_characterization (str "123@C.US")).1 (str "123") (str "@C.US")
      (by decide) (by decide) (by decide) (by decide)
  · exact (C5_chatIdToE164_characterization (str "+55abc")).2.1 (by decide) (by decide)
  · exact (C5_chatIdToE164_characterization (str "ab1c2")).2.2.1 (by decide) (by decide) (by decide)
  · exact (C5_chatIdToE164_characterization (str "abc")).2.2.2 (by decide) (by decide) (by decide)

/-! ## Claims -/

/-- C4 counterexample: `normalizeTarget` is not idempotent.  Stripping one
`waha:` scheme prefix can expose a second one: `"waha:waha:123"` normalizes
to `"waha:123"`, which normalizes further to `"123@c.us"`. -/
theorem C4_counterexample :
    normalizeWahaTarget (str "waha:waha:123") = str "waha:123" ∧
    normalizeWahaTarget (normalizeWahaTarget (str "waha:waha:123")) = str "123@c.us" ∧
    normalizeWahaTarget (normalizeWahaTarget (str "waha:waha:123")) ≠
      normalizeWahaTarget (str "waha:waha:123") := by
  refine ⟨by decide, by decide, by decide⟩

/-- C4 (amended): `normalizeTarget` is idempotent on every input whose
normalized form is unchanged by trimming and scheme-prefix stripping, i.e.
except when stripping one `waha:` scheme exposes another scheme prefix or
surrounding whitespace. -/
theorem C4_normalizeTarget_idempotent (x : Str)
    (h : stripWahaScheme (jsTrim (normalizeWahaTarget x)) = normalizeWahaTarget x) :
    normalizeWahaTarget (normalizeWahaTarget x) = normalizeWahaTarget x := by
  obtain ⟨htrim, hstrip⟩ := fixed_of_stripTrim_eq h
  rcases normalizeWahaTarget_cases x with hsuf | ⟨hsuf, hplus, hdig⟩ | ⟨hsuf, hplus, hdig⟩
  · rw [normalizeWahaTarget_eq (normalizeWahaTarget x), htrim, hstrip]
    simp [hsuf]
  · rw [normalizeWahaTarget_eq (normalizeWahaTarget x), htrim, hstrip]
    simp [hsuf, hplus, e164ToChatId_eq, hdig]
  · rw [normalizeWahaTarget_eq (normalizeWahaTarget x), htrim, hstrip]
    simp only [hsuf, Bool.false_eq_true, if_false]
    rw [if_neg hplus, if_neg hdig]

/-- C4 witness: a concrete already-normalized input satisfying the
hypothesis. -/
theorem C4_normalizeTarget_idempotent_witness :
    stripWahaScheme (jsTrim (normalizeWahaTarget (str "waha:+55 11 97681-9114"))) =
      normalizeWahaTarget (str "waha:+55 11 97681-9114") ∧
    normalizeWahaTarget (normalizeWahaTarget (str "waha:+55 11 97681-9114")) =
      normalizeWahaTarget (str "waha:+55 11 97681-9114") :=
  ⟨by decide, C4_normalizeTarget_idempotent (str "waha:+55 11 97681-9114") (by decide)⟩

/-- Normalizing a nonempty bare digit run yields the suffixed canonical id. -/
theorem normalizeWahaTarget_digits {d : Str} (hne : d ≠ [])
    (hdig : ∀ c ∈ d, isDigitChar c = true) :
    normalizeWahaTarget d = d ++ str "@c.us" := by
  obtain ⟨c, t, rfl⟩ : ∃ c t, d = c :: t := by
    cases d with
    | nil => exact absurd rfl hne
    | cons c t => exact ⟨c, t, rfl⟩
  have hc : isDigitChar c = true := hdig c (List.mem_cons_self c t)
  have hfacts := digitChar_facts hc
  have htrim : jsTrim (c :: t) = c :: t :=
    jsTrim_eq_self fun a ha => (digitChar_facts (hdig a ha)).1
  have hstrip : stripWahaScheme (c :: t) = c :: t :=
    stripWahaScheme_eq_self_of_head rfl (by rw [hfacts.2.1]; exact hfacts.2.2.1)
  have hsuf : hasWahaSuffix (c :: t) = false :=
    hasWahaSuffix_false_of_no_at (no_at_of_all_digits hdig)
  have hfil : (c :: t).filter isDigitChar = c :: t := List.filter_eq_self.mpr hdig
  rw [normalizeWahaTarget_eq, htrim, hstrip, hsuf]
  simp only [Bool.false_eq_true, if_false]
  rw [if_neg (by simp [hfacts.2.2.2.1]), if_pos ⟨by rw [hfil]; exact hne, hfil⟩, hfil]

/-- Normalizing a `+`-prefixed nonempty digit run yields the same suffixed
canonical id. -/
theorem normalizeWahaTarget_plus_digits {d : Str} (hne : d ≠ [])
    (hdig : ∀ c ∈ d, isDigitChar c = true) :
    normalizeWahaTarget ('+' :: d) = d ++ str "@c.us" := by
  have htrim : jsTrim ('+' :: d) = '+' :: d := by
    refine jsTrim_eq_self fun a ha => ?_
    rcases List.mem_cons.mp ha with rfl | ha
    · decide
    · exact (digitChar_facts (hdig a ha)).1
  have hstrip : stripWahaScheme ('+' :: d) = '+' :: d :=
    stripWahaScheme_eq_self_of_head rfl (by decide)
  have hsuf : hasWahaSuffix ('+' :: d) = false := by
    refine hasWahaSuffix_false_of_no_at fun hm => ?_
    rcases List.mem_cons.mp hm with h | h
    · exact absurd h (by decide)
    · exact no_at_of_all_digits hdig h
  have hfil : ('+' :: d).filter isDigitChar = d := by
    rw [List.filter_cons_of_neg (by decide), List.filter_eq_self.mpr hdig]
  rw [normalizeWahaTarget_eq, htrim, hstrip, hsuf]
  simp only [Bool.false_eq_true, if_false, List.head?_cons, if_pos]
  rw [e164ToChatId_eq, hfil, if_neg hne]

/-- C6: round-tripping a nonempty digit run, bare or `+`-prefixed, through
`normalizeTarget` and then `toExternalId` yields the canonical E.164 form
`+<digits>`, and the two equivalent starting forms normalize identically. -/
theorem C6_roundtrip (d : Str) (hne : d ≠ []) (hdig : d.all isDigitChar = true) :
    chatIdToE164 (normalizeWahaTarget d) = '+' :: d ∧
    chatIdToE164 (normalizeWahaTarget ('+' :: d)) = '+' :: d ∧
    normalizeWahaTarget ('+' :: d) = normalizeWahaTarget d := by
  have hdig' : ∀ c ∈ d, isDigitChar c = true := List.all_eq_true.mp hdig
  have h1 := normalizeWahaTarget_digits hne hdig'
  have h2 := normalizeWahaTarget_plus_digits hne hdig'
  have h3 : chatIdToE164 (d ++ str "@c.us") = '+' :: d := by
    rw [chatIdToE164, matchDigitsCUs_append hne hdig' (by decide)]
  exact ⟨by rw [h1, h3], by rw [h2, h3], by rw [h1, h2]⟩

/-- C6 witness: the round-trip at a concrete number. -/
theorem C6_roundtrip_witness :
    chatIdToE164 (normalizeWahaTarget (str "5511976819114")) = str "+5511976819114" ∧
    chatIdToE164 (normalizeWahaTarget (str "+5511976819114")) = str "+5511976819114" ∧
    normalizeWahaTarget (str "+5511976819114") = normalizeWahaTarget (str "5511976819114") := by
  have h := C6_roundtrip (str "5511976819114") (by decide) (by decide)
  exact ⟨h.1, h.2.1, h.2.2⟩

/-- Zeta-reduced equation for the direct-message branch of
`checkInboundAccessControl`. -/
theorem checkInboundAccessControl_dm_eq (store : Option (List Str)) (senderId senderE164 : Str)
    (account : ResolvedWahaAccount) :
    checkInboundAccessControl store senderId senderE164 false account =
      if account.config.dmPolicy.getD DmPolicy.pairing = DmPolicy.disabled then
        { allowed := false, reason := some (str "DMs disabled") }
      else if account.config.dmPolicy.getD DmPolicy.pairing = DmPolicy.open_ then
        { allowed := true }
      else if (((account.config.allowFrom.getD []) ++ store.getD []).map
            normalizeWahaAllowEntry).contains senderE164 ∨
          (((account.config.allowFrom.getD []) ++ store.getD []).map
            normalizeWahaAllowEntry).contains senderId then
        { allowed := true }
      else if account.config.dmPolicy.getD DmPolicy.pairing = DmPolicy.pairing then
        { allowed := false, reason := some (str "pairing required") }
      else
        { allowed := false, reason := some (str "sender not in allowlist") } := rfl

/-- Zeta-reduced equation for `handleMessageTrace`. -/
theorem handleMessageTrace_eq (store : Option (List Str)) (account : ResolvedWahaAccount)
    (payload : WahaMessagePayload) :
    handleMessageTrace store account payload =
      WEvent.recordInbound :: WEvent.accessCheck ::
        (if ¬(checkInboundAccessControl store (payload.participant.getD payload.chatFrom)
            (chatIdToE164 (payload.participant.getD payload.chatFrom))
            (isGroupChatId payload.chatFrom) account).allowed then
          if (checkInboundAccessControl store (payload.participant.getD payload.chatFrom)
              (chatIdToE164 (payload.participant.getD payload.chatFrom))
              (isGroupChatId payload.chatFrom) account).reason = some (str "pairing required") then
            [WEvent.upsertPairing, WEvent.sendPairingText]
          else []
        else [WEvent.dispatchReply]) := rfl

/-- C3: direct-message access control is the tri-state function of the spec —
`disabled` rejects unconditionally, `open` accepts unconditionally,
`allowlist`/`pairing` accept exactly on a normalized combined-allow-list
match against either sender form, an unmatched sender is rejected with
reason `"pairing required"` iff the policy is `pairing` (otherwise
`"sender not in allowlist"`), and the message handler performs the pairing
side effects exactly on a `"pairing required"` rejection. -/
theorem C3_dm_policy_tristate (store : Option (List Str)) (senderId senderE164 : Str)
    (account : ResolvedWahaAccount) (payload : WahaMessagePayload) :
    (account.config.dmPolicy.getD DmPolicy.pairing = DmPolicy.disabled →
      checkInboundAccessControl store senderId senderE164 false account =
        { allowed := false, reason := some (str "DMs disabled") }) ∧
    (account.config.dmPolicy.getD DmPolicy.pairing = DmPolicy.open_ →
      checkInboundAccessControl store senderId senderE164 false account = { allowed := true }) ∧
    ((account.config.dmPolicy.getD DmPolicy.pairing = DmPolicy.allowlist ∨
      account.config.dmPolicy.getD DmPolicy.pairing = DmPolicy.pairing) →
      ((((account.config.allowFrom.getD []) ++ store.getD []).map
            normalizeWahaAllowEntry).contains senderE164 ∨
        (((account.config.allowFrom.getD []) ++ store.getD []).map
            normalizeWahaAllowEntry).contains senderId →
        checkInboundAccessControl store senderId senderE164 false account =
          { allowed := true }) ∧
      (¬((((account.config.allowFrom.getD []) ++ store.getD []).map
            normalizeWahaAllowEntry).contains senderE164 ∨
         (((account.config.allowFrom.getD []) ++ store.getD []).map
            normalizeWahaAllowEntry).contains senderId) →
        (checkInboundAccessControl store senderId senderE164 false account).allowed = false ∧
        ((checkInboundAccessControl store senderId senderE164 false account).reason =
            some (str "pairing required") ↔
          account.config.dmPolicy.getD DmPolicy.pairing = DmPolicy.pairing) ∧
        (account.config.dmPolicy.getD DmPolicy.pairing = DmPolicy.allowlist →
          (checkInboundAccessControl store senderId senderE164 false account).reason =
            some (str "sender not in allowlist")))) ∧
    ((WEvent.upsertPairing ∈ handleMessageTrace store account payload ∨
      WEvent.sendPairingText ∈ handleMessageTrace store account payload) ↔
      ((checkInboundAccessControl store (payload.participant.getD payload.chatFrom)
          (chatIdToE164 (payload.participant.getD payload.chatFrom))
          (isGroupChatId payload.chatFrom) account).allowed = false ∧
       (checkInboundAccessControl store (payload.participant.getD payload.chatFrom)
          (chatIdToE164 (payload.participant.getD payload.chatFrom))
          (isGroupChatId payload.chatFrom) account).reason = some (str "pairing required"))) := by
  refine ⟨?_, ?_, ?_, ?_⟩
  · intro hdm
    rw [checkInboundAccessControl_dm_eq, if_pos hdm]
  · intro hdm
    rw [checkInboundAccessControl_dm_eq, if_neg (by rw [hdm]; decide), if_pos hdm]
  · intro hdm
    have hdis : account.config.dmPolicy.getD DmPolicy.pairing ≠ DmPolicy.disabled := by
      rcases hdm with h | h <;> rw [h] <;> decide
    have hop : account.config.dmPolicy.getD DmPolicy.pairing ≠ DmPolicy.open_ := by
      rcases hdm with h | h <;> rw [h] <;> decide
    constructor
    · intro hmatch
      rw [checkInboundAccessControl_dm_eq, if_neg hdis, if_neg hop, if_pos hmatch]
    · intro hmatch
      rw [checkInboundAccessControl_dm_eq, if_neg hdis, if_neg hop, if_neg hmatch]
      rcases hdm with h | h
      · have hpair : account.config.dmPolicy.getD DmPolicy.pairing ≠ DmPolicy.pairing := by
          rw [h]; decide
        rw [if_neg hpair]
        exact ⟨rfl, by simp [hpair, str], fun _ => rfl⟩
      · rw [if_pos h]
        exact ⟨rfl, by simp [h], fun hc => absurd h (by rw [hc]; decide)⟩
  · rw [handleMessageTrace_eq]
    cases hall : (checkInboundAccessControl store (payload.participant.getD payload.chatFrom)
        (chatIdToE164 (payload.participant.getD payload.chatFrom))
        (isGroupChatId payload.chatFrom) account).allowed
    · by_cases hr : (checkInboundAccessControl store (payload.participant.getD payload.chatFrom)
          (chatIdToE164 (payload.participant.getD payload.chatFrom))
          (isGroupChatId payload.chatFrom) account).reason = some (str "pairing required")
      · simp [hall, hr]
      · simp [hall, hr]
    · simp [hall]

/-- C3 witness: the `disabled` and `pairing` branches at concrete inputs. -/
theorem C3_dm_policy_tristate_witness :
    checkInboundAccessControl none (str "5511@c.us") (str "+5511") false
      { accountId := str "default", session := str "default",
        config := { dmPolicy := some DmPolicy.disabled } } =
      { allowed := false, reason := some (str "DMs disabled") } ∧
    (checkInboundAccessControl none (str "5511@c.us") (str "+5511") false
      { accountId := str "default", session := str "default",
        config := { dmPolicy := some DmPolicy.pairing } }).reason =
      some (str "pairing required") := by
  constructor
  · exact (C3_dm_policy_tristate none (str "5511@c.us") (str "+5511")
      { accountId := str "default", session := str "default",
        config := { dmPolicy := some DmPolicy.disabled } } {}).1 rfl
  · exact (((C3_dm_policy_tristate none (str "5511@c.us") (str "+5511")
      { accountId := str "default", session := str "default",
        config := { dmPolicy := some DmPolicy.pairing } } {}).2.2.1
        (Or.inr rfl)).2 (by decide)).2.1.mpr rfl

/-- Zeta-reduced POST-path equation for `handleWebhookRequest`. -/
theorem handleWebhookRequest_post_eq (hmacHex : Str → Str → Str → Option Str)
    (parse : Str → Option WahaWebhookPayload) (store : Option (List Str))
    (account : ResolvedWahaAccount) (req : WebhookRequest) (hmethod : req.method = str "POST") :
    handleWebhookRequest hmacHex parse store account req =
      match account.hmacKey with
      | none => acceptWebhookBody parse store account req.body
      | some hmacKey =>
        if hmacKey = [] then acceptWebhookBody parse store account req.body
        else
          match req.hmacHeader with
          | none => [WEvent.respond 401]
          | some signature =>
            if signature = [] then [WEvent.respond 401]
            else
              match validateWahaHmac hmacHex req.body signature hmacKey
                  (req.hmacAlgorithmHeader.getD (str "sha512")) with
              | Except.error _ => [WEvent.respond 500]
              | Except.ok false => [WEvent.respond 401]
              | Except.ok true => acceptWebhookBody parse store account req.body := by
  unfold handleWebhookRequest
  rw [hmethod, if_neg (by decide), if_neg (by decide)]

/-- C7: a `message`/`message.any` event whose payload is flagged `fromMe`
is dropped before any dispatch — the trace is empty, so in particular no
access-control evaluation and no reply dispatch occur, for every account
configuration. -/
theorem C7_fromMe_suppression (store : Option (List Str)) (account : ResolvedWahaAccount)
    (payload : WahaWebhookPayload)
    (hev : payload.event = str "message" ∨ payload.event = str "message.any")
    (hme : payload.message.fromMe = true) :
    dispatchWebhookEvent store account payload = [] ∧
    WEvent.accessCheck ∉ dispatchWebhookEvent store account payload ∧
    WEvent.dispatchReply ∉ dispatchWebhookEvent store account payload := by
  have h : dispatchWebhookEvent store account payload = [] := by
    unfold dispatchWebhookEvent
    rw [if_pos hev, hme]
    simp
  exact ⟨h, by simp [h], by simp [h]⟩

/-- C7 witness: a concrete self-echo is dropped even under an open policy. -/
theorem C7_fromMe_suppression_witness :
    payloadFromMe.message.fromMe = true ∧
    dispatchWebhookEvent none acctPlain payloadFromMe = [] :=
  ⟨rfl, (C7_fromMe_suppression none acctPlain payloadFromMe (Or.inl rfl) rfl).1⟩

/-- C2: for every accepted POST (HMAC not required — absent or empty key — or
verified), once the body parses the handler's trace is exactly
`parseJson`, then the 200 response, then the event dispatch: the response is
written before the message-handler invocation begins, and the trace shape
shows it does not wait on the dispatch. -/
theorem C2_respond_before_dispatch (hmacHex : Str → Str → Str → Option Str)
    (parse : Str → Option WahaWebhookPayload) (store : Option (List Str))
    (account : ResolvedWahaAccount) (req : WebhookRequest) (payload : WahaWebhookPayload)
    (hmethod : req.method = str "POST")
    (hauth : account.hmacKey = none ∨ account.hmacKey = some [] ∨
      ∃ key signature, account.hmacKey = some key ∧ key ≠ [] ∧
        req.hmacHeader = some signature ∧ signature ≠ [] ∧
        validateWahaHmac hmacHex req.body signature key
          (req.hmacAlgorithmHeader.getD (str "sha512")) = Except.ok true)
    (hparse : parse req.body = some payload) :
    handleWebhookRequest hmacHex parse store account req =
      WEvent.parseJson :: WEvent.respond 200 :: dispatchWebhookEvent store account payload := by
  rw [handleWebhookRequest_post_eq hmacHex parse store account req hmethod]
  have haccept : acceptWebhookBody parse store account req.body =
      WEvent.parseJson :: WEvent.respond 200 :: dispatchWebhookEvent store account payload := by
    unfold acceptWebhookBody
    rw [hparse]
  rcases hauth with h | h | ⟨key, signature, hk, hkne, hh, hsne, hv⟩
  · rw [h]
    exact haccept
  · rw [h]
    exact haccept
  · rw [hk]
    change (if key = [] then _ else _) = _
    rw [if_neg hkne, hh]
    change (if signature = [] then _ else _) = _
    rw [if_neg hsne, hv]
    exact haccept

/-- C2 witness: a concrete accepted POST with no HMAC key configured. -/
theorem C2_respond_before_dispatch_witness :
    handleWebhookRequest hmacToy parseMsg none acctPlain reqPost =
      WEvent.parseJson :: WEvent.respond 200 :: dispatchWebhookEvent none acctPlain payloadMsg :=
  C2_respond_before_dispatch hmacToy parseMsg none acctPlain reqPost payloadMsg rfl
    (Or.inl rfl) rfl

/-- C1 counterexample: with an HMAC key configured and a signature header
present whose byte length cannot equal the digest's, `timingSafeEqual`
throws, and the handler responds 500 — not 401 as the claim states.  (The
body is still never parsed.) -/
theorem C1_counterexample :
    validateWahaHmac hmacToy (str "b") (str "xyz") (str "k") (str "sha512") =
      Except.error () ∧
    handleWebhookRequest hmacToy parseNone none acctHmac reqBadSig = [WEvent.respond 500] ∧
    handleWebhookRequest hmacToy parseNone none acctHmac reqBadSig ≠ [WEvent.respond 401] :=
  ⟨rfl, by decide, by decide⟩

/-- C1 (amended): with a (non-empty) HMAC key configured, a missing or empty
signature header and a non-matching comparable signature each produce exactly
the 401 response, while a signature that fails to decode/compare (length
mismatch or unknown algorithm, i.e. a `validateWahaHmac` throw) produces
exactly the 500 response; in every failure case processing stops with that
single response and the body is never parsed as JSON. -/
theorem C1_hmac_failure_responses (hmacHex : Str → Str → Str → Option Str)
    (parse : Str → Option WahaWebhookPayload) (store : Option (List Str))
    (account : ResolvedWahaAccount) (req : WebhookRequest) (key : Str)
    (hkey : account.hmacKey = some key) (hkne : key ≠ [])
    (hmethod : req.method = str "POST") :
    ((req.hmacHeader = none ∨ req.hmacHeader = some []) →
      handleWebhookRequest hmacHex parse store account req = [WEvent.respond 401] ∧
      WEvent.parseJson ∉ handleWebhookRequest hmacHex parse store account req) ∧
    (∀ signature, req.hmacHeader = some signature → signature ≠ [] →
      validateWahaHmac hmacHex req.body signature key
          (req.hmacAlgorithmHeader.getD (str "sha512")) = Except.ok false →
      handleWebhookRequest hmacHex parse store account req = [WEvent.respond 401] ∧
      WEvent.parseJson ∉ handleWebhookRequest hmacHex parse store account req) ∧
    (∀ signature, req.hmacHeader = some signature → signature ≠ [] →
      validateWahaHmac hmacHex req.body signature key
          (req.hmacAlgorithmHeader.getD (str "sha512")) = Except.error () →
      handleWebhookRequest hmacHex parse store account req = [WEvent.respond 500] ∧
      WEvent.parseJson ∉ handleWebhookRequest hmacHex parse store account req) := by
  refine ⟨?_, ?_, ?_⟩
  · intro hh
    have h : handleWebhookRequest hmacHex parse store account req = [WEvent.respond 401] := by
      rw [handleWebhookRequest_post_eq hmacHex parse store account req hmethod, hkey]
      change (if key = [] then _ else _) = _
      rw [if_neg hkne]
      rcases hh with h | h
      · rw [h]
      · rw [h]
        rfl
    exact ⟨h, by simp [h]⟩
  · intro signature hh hsne hv
    have h : handleWebhookRequest hmacHex parse store account req = [WEvent.respond 401] := by
      rw [handleWebhookRequest_post_eq hmacHex parse store account req hmethod, hkey]
      change (if key = [] then _ else _) = _
      rw [if_neg hkne, hh]
      change (if signature = [] then _ else _) = _
      rw [if_neg hsne, hv]
    exact ⟨h, by simp [h]⟩
  · intro signature hh hsne hv
    have h : handleWebhookRequest hmacHex parse store account req = [WEvent.respond 500] := by
      rw [handleWebhookRequest_post_eq hmacHex parse store account req hmethod, hkey]
      change (if key = [] then _ else _) = _
      rw [if_neg hkne, hh]
      change (if signature = [] then _ else _) = _
      rw [if_neg hsne, hv]
    exact ⟨h, by simp [h]⟩

/-- C1 witness: the missing-header and mismatched-signature branches at
concrete requests. -/
theorem C1_hmac_failure_responses_witness :
    handleWebhookRequest hmacToy parseNone none acctHmac reqNoSig = [WEvent.respond 401] ∧
    handleWebhookRequest hmacToy parseNone none acctHmac
      { method := str "POST", hmacHeader := some (str "zz"), body := str "b" } =
      [WEvent.respond 401] := by
  constructor
  · exact ((C1_hmac_failure_responses hmacToy parseNone none acctHmac reqNoSig (str "k")
      rfl (by decide) rfl).1 (Or.inl rfl)).1
  · exact ((C1_hmac_failure_responses hmacToy parseNone none acctHmac
      { method := str "POST", hmacHeader := some (str "zz"), body := str "b" } (str "k")
      rfl (by decide) rfl).2.1 (str "zz") rfl (by decide) rfl).1

/-- Zeta-reduced equation for `resolveWahaAccount`. -/
theorem resolveWahaAccount_eq (cfg : OpenClawConfig) (accountId : Option Str) :
    resolveWahaAccount cfg accountId =
      match lookupWahaAccount ((getWahaConfig cfg).getD {}) (normalizeAccountId accountId) with
      | some accountConfig =>
        if normalizeAccountId accountId = DEFAULT_ACCOUNT_ID then
          { accountId := DEFAULT_ACCOUNT_ID
            name := ((getWahaConfig cfg).getD {}).name
            enabled := ((getWahaConfig cfg).getD {}).enabled.getD true
            url := ((getWahaConfig cfg).getD {}).url.getD []
            apiKey := ((getWahaConfig cfg).getD {}).apiKey.getD []
            session := ((getWahaConfig cfg).getD {}).session.getD (str "default")
            hmacKey := ((getWahaConfig cfg).getD {}).hmacKey
            config :=
              { allowFrom := ((getWahaConfig cfg).getD {}).allowFrom
                groupAllowFrom := ((getWahaConfig cfg).getD {}).groupAllowFrom
                dmPolicy := ((getWahaConfig cfg).getD {}).dmPolicy
                groupPolicy := ((getWahaConfig cfg).getD {}).groupPolicy } }
        else
          { accountId := normalizeAccountId accountId
            name := some (accountConfig.name.getD (normalizeAccountId accountId))
            enabled := accountConfig.enabled.getD true
            url := ((getWahaConfig cfg).getD {}).url.getD []
            apiKey := ((getWahaConfig cfg).getD {}).apiKey.getD []
            session := accountConfig.session
            hmacKey := ((getWahaConfig cfg).getD {}).hmacKey
            config :=
              { allowFrom :=
                  accountConfig.allowFrom.orElse fun _ => ((getWahaConfig cfg).getD {}).allowFrom
                groupAllowFrom :=
                  accountConfig.groupAllowFrom.orElse fun _ =>
                    ((getWahaConfig cfg).getD {}).groupAllowFrom
                dmPolicy :=
                  accountConfig.dmPolicy.orElse fun _ => ((getWahaConfig cfg).getD {}).dmPolicy
                groupPolicy :=
                  accountConfig.groupPolicy.orElse fun _ =>
                    ((getWahaConfig cfg).getD {}).groupPolicy } }
      | none =>
        { accountId := DEFAULT_ACCOUNT_ID
          name := ((getWahaConfig cfg).getD {}).name
          enabled := ((getWahaConfig cfg).getD {}).enabled.getD true
          url := ((getWahaConfig cfg).getD {}).url.getD []
          apiKey := ((getWahaConfig cfg).getD {}).apiKey.getD []
          session := ((getWahaConfig cfg).getD {}).session.getD (str "default")
          hmacKey := ((getWahaConfig cfg).getD {}).hmacKey
          config :=
            { allowFrom := ((getWahaConfig cfg).getD {}).allowFrom
              groupAllowFrom := ((getWahaConfig cfg).getD {}).groupAllowFrom
              dmPolicy := ((getWahaConfig cfg).getD {}).dmPolicy
              groupPolicy := ((getWahaConfig cfg).getD {}).groupPolicy } } := rfl

/-- Resolution of a named account present in the accounts map. -/
theorem resolveWahaAccount_named (cfg : OpenClawConfig) (accountId : Option Str)
    (acc : WahaAccountConfig) (hne : normalizeAccountId accountId ≠ DEFAULT_ACCOUNT_ID)
    (hl : lookupWahaAccount ((getWahaConfig cfg).getD {}) (normalizeAccountId accountId) =
      some acc) :
    resolveWahaAccount cfg accountId =
      { accountId := normalizeAccountId accountId
        name := some (acc.name.getD (normalizeAccountId accountId))
        enabled := acc.enabled.getD true
        url := ((getWahaConfig cfg).getD {}).url.getD []
        apiKey := ((getWahaConfig cfg).getD {}).apiKey.getD []
        session := acc.session
        hmacKey := ((getWahaConfig cfg).getD {}).hmacKey
        config :=
          { allowFrom := acc.allowFrom.orElse fun _ => ((getWahaConfig cfg).getD {}).allowFrom
            groupAllowFrom :=
              acc.groupAllowFrom.orElse fun _ => ((getWahaConfig cfg).getD {}).groupAllowFrom
            dmPolicy := acc.dmPolicy.orElse fun _ => ((getWahaConfig cfg).getD {}).dmPolicy
            groupPolicy :=
              acc.groupPolicy.orElse fun _ => ((getWahaConfig cfg).getD {}).groupPolicy } } := by
  rw [resolveWahaAccount_eq, hl]
  change (if normalizeAccountId accountId = DEFAULT_ACCOUNT_ID then _ else _) = _
  rw [if_neg hne]

/-- Resolution falls back to the channel-wide default record when the id is
the default sentinel or names no existing account. -/
theorem resolveWahaAccount_default (cfg : OpenClawConfig) (accountId : Option Str)
    (h : normalizeAccountId accountId = DEFAULT_ACCOUNT_ID ∨
      lookupWahaAccount ((getWahaConfig cfg).getD {}) (normalizeAccountId accountId) = none) :
    resolveWahaAccount cfg accountId =
      { accountId := DEFAULT_ACCOUNT_ID
        name := ((getWahaConfig cfg).getD {}).name
        enabled := ((getWahaConfig cfg).getD {}).enabled.getD true
        url := ((getWahaConfig cfg).getD {}).url.getD []
        apiKey := ((getWahaConfig cfg).getD {}).apiKey.getD []
        session := ((getWahaConfig cfg).getD {}).session.getD (str "default")
        hmacKey := ((getWahaConfig cfg).getD {}).hmacKey
        config :=
          { allowFrom := ((getWahaConfig cfg).getD {}).allowFrom
            groupAllowFrom := ((getWahaConfig cfg).getD {}).groupAllowFrom
            dmPolicy := ((getWahaConfig cfg).getD {}).dmPolicy
            groupPolicy := ((getWahaConfig cfg).getD {}).groupPolicy } } := by
  rw [resolveWahaAccount_eq]
  cases hl : lookupWahaAccount ((getWahaConfig cfg).getD {}) (normalizeAccountId accountId) with
  | none => rfl
  | some acc =>
    rcases h with h | h
    · change (if normalizeAccountId accountId = DEFAULT_ACCOUNT_ID then _ else _) = _
      rw [if_pos h]
    · rw [hl] at h
      exact absurd h (by simp)

/-- C8: a named account's `session` comes exclusively from the named entry
(no fallback to the channel-wide session); the default sentinel or a
non-existent id resolves to the channel-wide record with `session` falling
back to the literal `"default"`; and resolution is total — an absent
configuration yields empty-string url/apiKey and the `"default"` session. -/
theorem C8_resolveAccount_session (cfg : OpenClawConfig) (accountId : Option Str) :
    (∀ acc, normalizeAccountId accountId ≠ DEFAULT_ACCOUNT_ID →
      lookupWahaAccount ((getWahaConfig cfg).getD {}) (normalizeAccountId accountId) =
        some acc →
      (resolveWahaAccount cfg accountId).session = acc.session ∧
      (resolveWahaAccount cfg accountId).accountId = normalizeAccountId accountId) ∧
    ((normalizeAccountId accountId = DEFAULT_ACCOUNT_ID ∨
      lookupWahaAccount ((getWahaConfig cfg).getD {}) (normalizeAccountId accountId) = none) →
      (resolveWahaAccount cfg accountId).accountId = DEFAULT_ACCOUNT_ID ∧
      (resolveWahaAccount cfg accountId).session =
        ((getWahaConfig cfg).getD {}).session.getD (str "default") ∧
      (resolveWahaAccount cfg accountId).url = ((getWahaConfig cfg).getD {}).url.getD [] ∧
      (resolveWahaAccount cfg accountId).apiKey =
        ((getWahaConfig cfg).getD {}).apiKey.getD []) ∧
    (cfg.waha = none →
      (resolveWahaAccount cfg accountId).url = [] ∧
      (resolveWahaAccount cfg accountId).apiKey = [] ∧
      (resolveWahaAccount cfg accountId).session = str "default") := by
  refine ⟨?_, ?_, ?_⟩
  · intro acc hne hl
    rw [resolveWahaAccount_named cfg accountId acc hne hl]
    exact ⟨rfl, rfl⟩
  · intro h
    rw [resolveWahaAccount_default cfg accountId h]
    exact ⟨rfl, rfl, rfl, rfl⟩
  · intro h
    have hl : lookupWahaAccount ((getWahaConfig cfg).getD {}) (normalizeAccountId accountId) =
        none := by
      simp [lookupWahaAccount, getWahaConfig, h]
    rw [resolveWahaAccount_default cfg accountId (Or.inr hl)]
    simp [getWahaConfig, h]

/-- C8 witness: a named account with its own session, and the empty
configuration. -/
theorem C8_resolveAccount_session_witness :
    (resolveWahaAccount
      { waha := some { url := some (str "https://w"), apiKey := some (str "K"),
                       session := some (str "base"),
                       accounts := some [(str "a2", some { session := str "s2" })] } }
      (some (str "a2"))).session = str "s2" ∧
    (resolveWahaAccount { waha := none } none).session = str "default" := by
  constructor
  · exact ((C8_resolveAccount_session
      { waha := some { url := some (str "https://w"), apiKey := some (str "K"),
                       session := some (str "base"),
                       accounts := some [(str "a2", some { session := str "s2" })] } }
      (some (str "a2"))).1 { session := str "s2" } (by decide) (by decide)).1
  · exact ((C8_resolveAccount_session { waha := none } none).2.2 rfl).2.2

/-- The dedup-append fold adds keys in order when they are distinct and
disjoint from the accumulator. -/
theorem foldDedup_eq_append :
    ∀ keys : List Str, keys.Nodup → ∀ base : List Str, (∀ k ∈ keys, k ∉ base) →
      keys.foldl
        (fun acc accountId => if acc.contains accountId then acc else acc ++ [accountId]) base =
      base ++ keys := by
  intro keys
  induction keys with
  | nil =>
    intro _ base _
    simp
  | cons k ks ih =>
    intro hnd base hdisj
    have hkb : k ∉ base := hdisj k (List.mem_cons_self k ks)
    have hcont : base.contains k = false := by simpa using hkb
    rw [List.foldl_cons, if_neg (by simpa using hkb)]
    have hdisj' : ∀ x ∈ ks, x ∉ base ++ [k] := by
      intro x hx
      simp only [List.mem_append, List.mem_singleton]
      rintro (hb | rfl)
      · exact hdisj x (List.mem_cons_of_mem k hx) hb
      · exact (List.nodup_cons.mp hnd).1 hx
    rw [ih (List.nodup_cons.mp hnd).2 (base ++ [k]) hdisj']
    simp

/-- Zeta-reduced equation for `listWahaAccountIds` on a present config. -/
theorem listWahaAccountIds_some_eq (cfg : OpenClawConfig) (wahaConfig : WahaConfig)
    (hcfg : getWahaConfig cfg = some wahaConfig) :
    listWahaAccountIds cfg =
      (accountKeys wahaConfig).foldl
        (fun acc accountId => if acc.contains accountId then acc else acc ++ [accountId])
        (if defaultAccountCredentialed wahaConfig then [DEFAULT_ACCOUNT_ID] else []) := by
  unfold listWahaAccountIds
  rw [hcfg]

/-- C9 counterexample: with an uncredentialed default account but a named
account keyed by the literal `"default"`, the returned list has the reserved
default id first even though the default account lacks all three credential
fields — refuting the claimed "if and only if". -/
theorem C9_counterexample :
    defaultAccountCredentialed ((getWahaConfig cfgDefaultKey).getD {}) = false ∧
    (listWahaAccountIds cfgDefaultKey).head? = some DEFAULT_ACCOUNT_ID := by
  exact ⟨by decide, by decide⟩

/-- C9 (amended): provided the named-accounts map does not use the reserved
default id as one of its (necessarily distinct) keys, the list is the default
id — present iff URL, API key and session are all populated — followed by
every key of the named-accounts map in order, and in particular the default
id is listed first exactly when the default account is fully credentialed. -/
theorem C9_listAccountIds (cfg : OpenClawConfig) (wahaConfig : WahaConfig)
    (hcfg : getWahaConfig cfg = some wahaConfig)
    (hnd : (accountKeys wahaConfig).Nodup)
    (hdef : DEFAULT_ACCOUNT_ID ∉ accountKeys wahaConfig) :
    listWahaAccountIds cfg =
      (if defaultAccountCredentialed wahaConfig then [DEFAULT_ACCOUNT_ID] else []) ++
        accountKeys wahaConfig ∧
    ((listWahaAccountIds cfg).head? = some DEFAULT_ACCOUNT_ID ↔
      defaultAccountCredentialed wahaConfig = true) := by
  have heq : listWahaAccountIds cfg =
      (if defaultAccountCredentialed wahaConfig then [DEFAULT_ACCOUNT_ID] else []) ++
        accountKeys wahaConfig := by
    rw [listWahaAccountIds_some_eq cfg wahaConfig hcfg]
    refine foldDedup_eq_append (accountKeys wahaConfig) hnd _ ?_
    intro k hk
    split
    · simp only [List.mem_singleton]
      rintro rfl
      exact hdef hk
    · simp
  refine ⟨heq, ?_⟩
  rw [heq]
  by_cases hc : defaultAccountCredentialed wahaConfig = true
  · simp [hc]
  · rw [if_neg hc, List.nil_append]
    simp only [hc, iff_false]
    cases hks : accountKeys wahaConfig with
    | nil => simp
    | cons k ks =>
      simp only [List.head?_cons]
      constructor
      · intro hh
        exfalso
        apply hdef
        rw [hks]
        obtain rfl : k = DEFAULT_ACCOUNT_ID := by injection hh
        exact List.mem_cons_self _ _
      · intro hfalse
        exact absurd hfalse (by decide)

/-- C9 witness: a credentialed default plus two named accounts. -/
theorem C9_listAccountIds_witness :
    listWahaAccountIds
      { waha := some { url := some (str "https://w"), apiKey := some (str "K"),
                       session := some (str "base"),
                       accounts := some [(str "a1", some { session := str "s1" }),
                                         (str "a2", none)] } } =
      [str "default", str "a1", str "a2"] := by
  have h := (C9_listAccountIds
    { waha := some { url := some (str "https://w"), apiKey := some (str "K"),
                     session := some (str "base"),
                     accounts := some [(str "a1", some { session := str "s1" }),
                                       (str "a2", none)] } }
    { url := some (str "https://w"), apiKey := some (str "K"),
      session := some (str "base"),
      accounts := some [(str "a1", some { session := str "s1" }), (str "a2", none)] }
    rfl (by decide) (by decide)).1
  rw [h]
  decide

/-- C10 counterexample: on an unconfigured account the same empty-payload
call does not succeed — it throws `"WAHA not configured"` before any client
call — so the claim does not hold of *every* such `sendPayload` call. -/
theorem C10_counterexample :
    wahaSendPayload (fun t _ => [t]) (fun _ => str "id") { waha := none } none (str "123") {} =
      Except.error (str "WAHA not configured") := rfl

/-- C10 (amended): on a configured account, a `sendPayload` whose payload has
empty or whitespace-only text, no media URLs and no location data issues no
outbound client call at all and still succeeds, returning the placeholder
message id `"sent"` (an unconfigured account instead throws before any
client call). -/
theorem C10_sendPayload_empty (chunk : Str → Nat → List Str) (ids : Nat → Str)
    (cfg : OpenClawConfig) (accountId : Option Str) (target : Str)
    (payload : OutboundPayload)
    (hconf : isWahaAccountConfigured (resolveWahaAccount cfg accountId) = true)
    (htext : jsTrim (payload.text.getD []) = [])
    (hmedia : payload.mediaUrls = some [] ∨
      (payload.mediaUrls = none ∧ jsTruthy payload.mediaUrl = false))
    (hloc : payload.wahaLocation = none) :
    wahaSendPayload chunk ids cfg accountId target payload =
      Except.ok
        ({ channel := str "waha", messageId := str "sent",
           chatId := normalizeWahaTarget target }, []) := by
  unfold wahaSendPayload
  simp only [hconf, htext, hloc]
  rcases hmedia with h | ⟨h, hfalsy⟩
  · simp [h]
  · simp [h, hfalsy]

/-- C10 witness: a configured account with a whitespace-only payload. -/
theorem C10_sendPayload_empty_witness :
    wahaSendPayload (fun t _ => [t]) (fun _ => str "id")
      { waha := some { url := some (str "https://w"), apiKey := some (str "K"),
                       session := some (str "base") } }
      none (str "5511") { text := some (str "  ") } =
      Except.ok
        ({ channel := str "waha", messageId := str "sent",
           chatId := normalizeWahaTarget (str "5511") }, []) :=
  C10_sendPayload_empty (fun t _ => [t]) (fun _ => str "id")
    { waha := some { url := some (str "https://w"), apiKey := some (str "K"),
                     session := some (str "base") } }
    none (str "5511") { text := some (str "  ") } (by decide) (by decide)
    (Or.inr ⟨rfl, rfl⟩) rfl

end OpenClawWaha
